import Mathlib

/-!
Verification of the generation-orchestration and streaming-protocol core of
the `ai-draw-next` repository, shallowly embedded in Lean 4.

The embedding follows the TypeScript source:
* `servers/shared/auth.ts` — `validateAccessPassword` (gateway authentication),
* `servers/routes/chat.ts` — `chatHandler` (metering-exemption resolution),
* `servers/shared/stream-anthropic.ts` — `streamAnthropic` (streaming relay),
* `src/services/aiService.ts` — `parseSSELine`, `streamChat`, `chat`,
* `src/hooks/useAIGenerate.ts` — `buildMultimodalContent`, `generate` entry
  guard, `attemptMermaidAutoFix`, `attemptExcalidrawAutoFix`, catch handler,
* `src/lib/promptBuilder.ts` — `buildInitialPrompt`, `buildEditPrompt`.

JavaScript host primitives (`JSON.parse`) are modelled as parameters of type
`String → Option Json`; JavaScript string truthiness (`if (s)`) is modelled
explicitly on `Option String`.
-/

/-- A JSON value, the result type of the host primitive `JSON.parse`.
Objects are association lists; field lookup models JS property access. -/
inductive Json where
  | null
  | bool (b : Bool)
  | num (n : Int)
  | str (s : String)
  | arr (elems : List Json)
  | obj (fields : List (String × Json))

/-- JS property access `v.name`: `some` when the field is present on an
object, `none` (i.e. `undefined`) otherwise — including on non-objects,
matching optional chaining in the source. -/
def Json.getField : Json → String → Option Json
  | .obj fields, name => fields.lookup name
  | _, _ => none

/-- JS index access `v[i]` on an array, `undefined` otherwise. -/
def Json.getIndex : Json → Nat → Option Json
  | .arr elems, i => elems.get? i
  | _, _ => none

/-- The string carried by a JSON string value. The service's TypeScript
signatures type extracted content as `string`; non-string JSON values in
content fields are outside that contract and yield `none` here. -/
def Json.asString : Json → Option String
  | .str s => some s
  | _ => none

/-- JS truthiness of an optional string (`undefined`/`null` and `""` are
falsy, every other string is truthy). -/
def jsTruthy : Option String → Bool
  | none => false
  | some s => s ≠ ""

/-- JS truthiness applied to an extracted JSON value that is expected to be
a string (`v.content || ...` chains in the source): truthy exactly when the
value is present and a non-empty string. -/
def jsTruthyJson : Option Json → Option String
  | some (.str s) => if s = "" then none else some s
  | _ => none

/-- JS whitespace as far as this codebase's strings are concerned (space,
tab, newline, carriage return). -/
def jsWhitespace (c : Char) : Bool :=
  c = ' ' || c = '\t' || c = '\n' || c = '\r'

/-- The host primitive `String.prototype.trim()`: strip leading and trailing
whitespace.  Implemented over the character list so that proofs can evaluate
it. -/
def jsTrim (s : String) : String :=
  String.mk (((s.data.dropWhile jsWhitespace).reverse.dropWhile
    jsWhitespace).reverse)

/-! ## Gateway authentication (`servers/shared/auth.ts`) -/

/-- From `validateAccessPassword(req, env)`:

```
const password = req.headers['x-access-password']
const configuredPassword = env.ACCESS_PASSWORD
if (!configuredPassword) return { valid: true, exempt: false }
if (password) {
  if (password === configuredPassword) return { valid: true, exempt: true }
  return { valid: false, exempt: false }
}
return { valid: true, exempt: false }
```

`password` and `configuredPassword` are `string | undefined`, modelled as
`Option String`; the JS `if` tests are truthiness tests. The result is
`(valid, exempt)`. -/
def validateAccessPassword (password configuredPassword : Option String) :
    Bool × Bool :=
  if ¬ jsTruthy configuredPassword then (true, false)
  else if jsTruthy password then
    if password = configuredPassword then (true, true)
    else (false, false)
  else (true, false)

/-- From `chatHandler` (`servers/routes/chat.ts`):

```
const { valid, exempt } = validateAccessPassword(req, env)
if (!valid) { res.status(401).json(...); return }
const hasCustomLLM = !!(llmConfig && llmConfig.apiKey)
const effectiveExempt = exempt || hasCustomLLM
res.setHeader('X-Quota-Exempt', effectiveExempt ? 'true' : 'false')
```

Returns `Except` of the 401 rejection or of the `X-Quota-Exempt` flag the
response carries. `hasCustomLLM` is the truthiness of `llmConfig.apiKey`. -/
def chatHandlerAuth (password configuredPassword : Option String)
    (llmConfigApiKey : Option String) : Except Unit Bool :=
  let r := validateAccessPassword password configuredPassword
  if ¬ r.1 then .error ()
  else
    let hasCustomLLM := jsTruthy llmConfigApiKey
    .ok (r.2 || hasCustomLLM)

/-! ## Claims about gateway authentication -/

/-- **C1.** Gateway authentication truth table: with no configured secret the
request authenticates and the shared-secret outcome is never exempt; with a
configured secret, a matching credential authenticates and is exempt, a
non-matching credential is rejected (401), and an absent credential
authenticates and is metered.  Independently, a caller-supplied custom
provider key (`llmConfig.apiKey`) grants metering exemption on every request
that is not rejected. -/
theorem gateway_auth_truth_table (password configuredPassword : Option String)
    (llmConfigApiKey : Option String) :
    (jsTruthy configuredPassword = false →
      validateAccessPassword password configuredPassword = (true, false)) ∧
    (jsTruthy configuredPassword = true → password = configuredPassword →
      validateAccessPassword password configuredPassword = (true, true)) ∧
    (jsTruthy configuredPassword = true → jsTruthy password = true →
      password ≠ configuredPassword →
      validateAccessPassword password configuredPassword = (false, false)) ∧
    (jsTruthy configuredPassword = true → jsTruthy password = false →
      validateAccessPassword password configuredPassword = (true, false)) ∧
    (jsTruthy llmConfigApiKey = true →
      ∀ exemptFlag,
        chatHandlerAuth password configuredPassword llmConfigApiKey =
          .ok exemptFlag → exemptFlag = true) := by
  refine ⟨?_, ?_, ?_, ?_, ?_⟩
  · intro hcfg
    simp [validateAccessPassword, hcfg]
  · intro hcfg heq
    have hpwd : jsTruthy password = true := heq ▸ hcfg
    simp [validateAccessPassword, hcfg, hpwd, heq]
  · intro hcfg hpwd hne
    simp [validateAccessPassword, hcfg, hpwd, hne]
  · intro hcfg hpwd
    simp [validateAccessPassword, hcfg, hpwd]
  · intro hkey exemptFlag hok
    unfold chatHandlerAuth at hok
    rcases h : (validateAccessPassword password configuredPassword) with ⟨v, e⟩
    rw [h] at hok
    cases v with
    | false => simp at hok
    | true =>
      simp [hkey] at hok
      exact hok

/-- Witness for **C1** at concrete inputs: secret `"s"`, matching credential,
custom key present. -/
theorem gateway_auth_truth_table_witness :
    validateAccessPassword (some "s") (some "s") = (true, true) ∧
    validateAccessPassword (some "w") (some "s") = (false, false) ∧
    validateAccessPassword none (some "s") = (true, false) ∧
    validateAccessPassword (some "s") none = (true, false) := by
  refine ⟨?_, ?_, ?_, ?_⟩
  · exact (gateway_auth_truth_table (some "s") (some "s") none).2.1
      (by decide) rfl
  · exact (gateway_auth_truth_table (some "w") (some "s") none).2.2.1
      (by decide) (by decide) (by decide)
  · exact (gateway_auth_truth_table none (some "s") none).2.2.2.1
      (by decide) (by decide)
  · exact (gateway_auth_truth_table (some "s") none none).1 (by decide)

/-! ## Orchestrator data model (`src/hooks/useAIGenerate.ts`) -/

/-- Status field of a `ChatMessage` in the chat store
(`'streaming' | 'complete' | 'error'`). -/
inductive MsgStatus where
  | streaming
  | complete
  | error
deriving DecidableEq

/-- A message content part of the uniform multimodal format
(`{type: 'text', text}` or `{type: 'image_url', image_url: {url}}`). -/
inductive ContentPart where
  | text (text : String)
  | image_url (url : String)
deriving DecidableEq

/-- A user attachment: an inline image, a document carrying extracted text,
or a URL carrying extracted markdown. -/
inductive Attachment where
  | image (dataUrl : String)
  | document (fileName : String) (content : String)
  | url (title : String) (content : String)
deriving DecidableEq

/-- The content part an attachment is folded into, from the loop body of
`buildMultimodalContent`:

```
if (attachment.type === 'image')
  parts.push({ type: 'image_url', image_url: { url: attachment.dataUrl } })
else if (attachment.type === 'document')
  parts.push({ type: 'text', text: `\n\n[Document: ${...}]\n${...}` })
else if (attachment.type === 'url')
  parts.push({ type: 'text', text: `\n\n[URL: ${...}]\n${...}` })
```
-/
def attachmentPart : Attachment → ContentPart
  | .image dataUrl => .image_url dataUrl
  | .document fileName content =>
      .text ("\n\n[Document: " ++ fileName ++ "]\n" ++ content)
  | .url title content =>
      .text ("\n\n[URL: " ++ title ++ "]\n" ++ content)

/-- From `buildMultimodalContent(text, attachments?, currentThumbnail?)`:

```
const hasAttachments = attachments && attachments.length > 0
const hasThumbnail = currentThumbnail && currentThumbnail.trim() !== ''
if (!hasAttachments && !hasThumbnail) return text
const parts = []
if (hasThumbnail) parts.push({type: 'image_url', image_url: {url: currentThumbnail}})
if (text) parts.push({type: 'text', text})
if (hasAttachments) for (const attachment of attachments) parts.push(...)
return parts
```

The optional `attachments` parameter is modelled as a list (`undefined` and
`[]` coincide on the falsy path); the sequence of pushes is modelled as list
concatenation. -/
def buildMultimodalContent (text : String) (attachments : List Attachment)
    (currentThumbnail : Option String) : Sum String (List ContentPart) :=
  let hasAttachments : Bool := !attachments.isEmpty
  let hasThumbnail : Bool :=
    jsTruthy currentThumbnail && (jsTrim (currentThumbnail.getD "") ≠ "")
  if !hasAttachments && !hasThumbnail then .inl text
  else
    .inr
      ((if hasThumbnail then [ContentPart.image_url (currentThumbnail.getD "")]
        else []) ++
       (if text ≠ "" then [ContentPart.text text] else []) ++
       (if hasAttachments then attachments.map attachmentPart else []))

/-- `ValidationResult` of the validation port:
`validate(artifact, format) -> {valid, error?}`. -/
structure ValidationResult where
  valid : Bool
  error : Option String
deriving DecidableEq

/-- The shared body of `attemptMermaidAutoFix` / `attemptExcalidrawAutoFix`:

```
let currentCode = failedCode
let attempts = 0
while (attempts < MAX_FIX_ATTEMPTS) {
  attempts++
  const fixedCode = extractCode(await send(fixPrompt(currentError, currentCode)))
  const validation = await validateContent(fixedCode, engine)
  if (validation.valid) return fixedCode
  currentCode = fixedCode
  currentError = validation.error || 'Unknown error'
}
return currentCode
```

The model's reply to the attempt-`k` correction request (after
`extractCode`) is the oracle `fixes k`; `validate` is the validation port.
UI progress updates (`尝试 k/ceiling`) are effect-only and not modelled.
Returns `(attempts performed, returned artifact)`. -/
def autoFixGo (ceiling : Nat) (validate : String → ValidationResult)
    (fixes : Nat → String) (attempts : Nat) (currentCode : String) :
    Nat × String :=
  if h : attempts < ceiling then
    let fixedCode := fixes (attempts + 1)
    if (validate fixedCode).valid then (attempts + 1, fixedCode)
    else autoFixGo ceiling validate fixes (attempts + 1) fixedCode
  else (attempts, currentCode)
termination_by ceiling - attempts
decreasing_by simp_wf; omega

/-- `MAX_MERMAID_FIX_ATTEMPTS = 3`. -/
def MAX_MERMAID_FIX_ATTEMPTS : Nat := 3

/-- `attemptMermaidAutoFix(failedCode, errorMessage, systemPrompt, msgId)`:
the repair loop with the Mermaid ceiling of `MAX_MERMAID_FIX_ATTEMPTS = 3`.
`errorMessage`/`systemPrompt` only shape the correction prompts behind the
oracle `fixes` and are not further modelled. -/
def attemptMermaidAutoFix (validate : String → ValidationResult)
    (fixes : Nat → String) (failedCode : String) : Nat × String :=
  autoFixGo MAX_MERMAID_FIX_ATTEMPTS validate fixes 0 failedCode

/-- `attemptExcalidrawAutoFix(...)`: the repair loop with the local ceiling
`MAX_EXCALIDRAW_FIX_ATTEMPTS = 2`. -/
def attemptExcalidrawAutoFix (validate : String → ValidationResult)
    (fixes : Nat → String) (failedCode : String) : Nat × String :=
  autoFixGo 2 validate fixes 0 failedCode

/-- A chat-store message record (role, content, status). -/
structure ChatMessage where
  role : String
  content : String
  status : MsgStatus
deriving DecidableEq

/-- The orchestrator-visible state touched by the `generate()` entry:
project context, the re-entrancy flag `isGeneratingRef.current`, the chat
store, the streaming/loading flags, and a count of transport dispatches
issued. -/
structure OrchestratorState where
  hasProject : Bool
  isGenerating : Bool
  messages : List ChatMessage
  isStreaming : Bool
  isLoading : Bool
  dispatchCount : Nat
deriving DecidableEq

/-- The entry of `generate(userInput, isInitial, attachments?)` up to the
first transport dispatch:

```
if (!currentProject) return
if (isGeneratingRef.current) { console.warn(...); return }
isGeneratingRef.current = true
addMessage({ role: 'user', content: userInput, status: 'complete', ... })
const assistantMsgId = addMessage({ role: 'assistant', content: '', status: 'streaming' })
setStreaming(true); setLoading(true)
// ... dispatch the generation strategy (a transport call)
```

Returns the updated state and whether the call proceeded past the guards
(`false` = returned immediately). -/
def generateEntry (s : OrchestratorState) (userInput : String) :
    OrchestratorState × Bool :=
  if !s.hasProject then (s, false)
  else if s.isGenerating then (s, false)
  else
    ({ s with
        isGenerating := true,
        messages := s.messages ++
          [{ role := "user", content := userInput, status := .complete },
           { role := "assistant", content := "", status := .streaming }],
        isStreaming := true,
        isLoading := true,
        dispatchCount := s.dispatchCount + 1 }, true)

/-- The `catch` handler of `generate` (and the identical one of `retryLast`):

```
const isAborted = error instanceof DOMException && error.name === 'AbortError'
if (isAborted) {
  updateMessage(assistantMsgId, { content: '已停止生成', status: 'error' })
} else {
  updateMessage(assistantMsgId, { content: `Error: ${message}`, status: 'error' })
  showError(message)
}
```

Returns `((assistant content, assistant status), toast surfaced?)`. -/
def generateCatchHandler (isAborted : Bool) (errMsg : String) :
    (String × MsgStatus) × Bool :=
  if isAborted then (("已停止生成", .error), false)
  else (("Error: " ++ errMsg, .error), true)

/-! ## Claims about the orchestrator -/

/-- One step of the repair loop when attempts remain. -/
theorem autoFixGo_step (ceiling : Nat) (validate : String → ValidationResult)
    (fixes : Nat → String) (attempts : Nat) (currentCode : String)
    (h : attempts < ceiling) :
    autoFixGo ceiling validate fixes attempts currentCode =
      if (validate (fixes (attempts + 1))).valid then
        (attempts + 1, fixes (attempts + 1))
      else
        autoFixGo ceiling validate fixes (attempts + 1) (fixes (attempts + 1)) := by
  rw [autoFixGo]
  simp [h]

/-- The repair loop stops once the attempt counter reaches the ceiling. -/
theorem autoFixGo_done (ceiling : Nat) (validate : String → ValidationResult)
    (fixes : Nat → String) (attempts : Nat) (currentCode : String)
    (h : ¬ attempts < ceiling) :
    autoFixGo ceiling validate fixes attempts currentCode =
      (attempts, currentCode) := by
  rw [autoFixGo]
  simp [h]

/-- **C2.** Repair loop contract: attempts are performed one at a time up to
the per-format ceiling (3 for Mermaid, 2 for Excalidraw); the loop returns
the first artifact that validates, at its attempt index, as soon as it is
produced; and if no attempt within the ceiling validates, the loop performs
exactly `ceiling` attempts and returns the final attempt's artifact `fixes
ceiling` (not the original `failedCode`). -/
theorem repair_loop_contract (validate : String → ValidationResult)
    (fixes : Nat → String) (failedCode : String) :
    ((attemptMermaidAutoFix validate fixes failedCode).1 ≤ 3) ∧
    ((attemptExcalidrawAutoFix validate fixes failedCode).1 ≤ 2) ∧
    (∀ k, 1 ≤ k → k ≤ 3 → (validate (fixes k)).valid = true →
      (∀ j, 1 ≤ j → j < k → (validate (fixes j)).valid = false) →
      attemptMermaidAutoFix validate fixes failedCode = (k, fixes k)) ∧
    (∀ k, 1 ≤ k → k ≤ 2 → (validate (fixes k)).valid = true →
      (∀ j, 1 ≤ j → j < k → (validate (fixes j)).valid = false) →
      attemptExcalidrawAutoFix validate fixes failedCode = (k, fixes k)) ∧
    ((∀ k, 1 ≤ k → k ≤ 3 → (validate (fixes k)).valid = false) →
      attemptMermaidAutoFix validate fixes failedCode = (3, fixes 3)) ∧
    ((∀ k, 1 ≤ k → k ≤ 2 → (validate (fixes k)).valid = false) →
      attemptExcalidrawAutoFix validate fixes failedCode = (2, fixes 2)) := by
  have step := autoFixGo_step
  have done := autoFixGo_done
  refine ⟨?_, ?_, ?_, ?_, ?_, ?_⟩
  · unfold attemptMermaidAutoFix MAX_MERMAID_FIX_ATTEMPTS
    rw [step 3 validate fixes 0 failedCode (by omega)]
    by_cases h1 : (validate (fixes 1)).valid
    · simp [h1]
    · rw [if_neg h1, step 3 validate fixes 1 _ (by omega)]
      by_cases h2 : (validate (fixes 2)).valid
      · simp [h2]
      · rw [if_neg h2, step 3 validate fixes 2 _ (by omega)]
        by_cases h3 : (validate (fixes 3)).valid
        · simp [h3]
        · rw [if_neg h3, done 3 validate fixes 3 _ (by omega)]
  · unfold attemptExcalidrawAutoFix
    rw [step 2 validate fixes 0 failedCode (by omega)]
    by_cases h1 : (validate (fixes 1)).valid
    · simp [h1]
    · rw [if_neg h1, step 2 validate fixes 1 _ (by omega)]
      by_cases h2 : (validate (fixes 2)).valid
      · simp [h2]
      · rw [if_neg h2, done 2 validate fixes 2 _ (by omega)]
  · intro k hk1 hk3 hvalid hearlier
    unfold attemptMermaidAutoFix MAX_MERMAID_FIX_ATTEMPTS
    interval_cases k
    · rw [step 3 validate fixes 0 failedCode (by omega), if_pos hvalid]
    · have h1 : (validate (fixes 1)).valid = false := hearlier 1 (by omega) (by omega)
      rw [step 3 validate fixes 0 failedCode (by omega), if_neg (by simp [h1]),
        step 3 validate fixes 1 _ (by omega), if_pos hvalid]
    · have h1 : (validate (fixes 1)).valid = false := hearlier 1 (by omega) (by omega)
      have h2 : (validate (fixes 2)).valid = false := hearlier 2 (by omega) (by omega)
      rw [step 3 validate fixes 0 failedCode (by omega), if_neg (by simp [h1]),
        step 3 validate fixes 1 _ (by omega), if_neg (by simp [h2]),
        step 3 validate fixes 2 _ (by omega), if_pos hvalid]
  · intro k hk1 hk2 hvalid hearlier
    unfold attemptExcalidrawAutoFix
    interval_cases k
    · rw [step 2 validate fixes 0 failedCode (by omega), if_pos hvalid]
    · have h1 : (validate (fixes 1)).valid = false := hearlier 1 (by omega) (by omega)
      rw [step 2 validate fixes 0 failedCode (by omega), if_neg (by simp [h1]),
        step 2 validate fixes 1 _ (by omega), if_pos hvalid]
  · intro hnever
    have h1 : (validate (fixes 1)).valid = false := hnever 1 (by omega) (by omega)
    have h2 : (validate (fixes 2)).valid = false := hnever 2 (by omega) (by omega)
    have h3 : (validate (fixes 3)).valid = false := hnever 3 (by omega) (by omega)
    unfold attemptMermaidAutoFix MAX_MERMAID_FIX_ATTEMPTS
    rw [step 3 validate fixes 0 failedCode (by omega), if_neg (by simp [h1]),
      step 3 validate fixes 1 _ (by omega), if_neg (by simp [h2]),
      step 3 validate fixes 2 _ (by omega), if_neg (by simp [h3]),
      done 3 validate fixes 3 _ (by omega)]
  · intro hnever
    have h1 : (validate (fixes 1)).valid = false := hnever 1 (by omega) (by omega)
    have h2 : (validate (fixes 2)).valid = false := hnever 2 (by omega) (by omega)
    unfold attemptExcalidrawAutoFix
    rw [step 2 validate fixes 0 failedCode (by omega), if_neg (by simp [h1]),
      step 2 validate fixes 1 _ (by omega), if_neg (by simp [h2]),
      done 2 validate fixes 2 _ (by omega)]

/-- Witness for **C2**: with a validator accepting exactly `"ok"` and a model
that produces `"ok"` on attempt 2, the Mermaid loop stops at attempt 2; with
a model that never produces `"ok"`, the Excalidraw loop performs exactly its
2 attempts and returns attempt 2's artifact. -/
theorem repair_loop_contract_witness :
    attemptMermaidAutoFix
      (fun s => ⟨s = "ok", none⟩) (fun k => if k = 2 then "ok" else "bad")
      "orig" = (2, "ok") ∧
    attemptExcalidrawAutoFix
      (fun s => ⟨s = "ok", none⟩) (fun k => "bad" ++ toString k)
      "orig" = (2, "bad2") := by
  constructor
  · exact (repair_loop_contract (fun s => ⟨s = "ok", none⟩)
      (fun k => if k = 2 then "ok" else "bad") "orig").2.2.1 2
      (by omega) (by omega) (by decide)
      (by intro j h1 h2
          have : j = 1 := by omega
          subst this
          decide)
  · exact (repair_loop_contract (fun s => ⟨s = "ok", none⟩)
      (fun k => "bad" ++ toString k) "orig").2.2.2.2.2
      (by intro k h1 h2
          interval_cases k <;> decide)

/-- **C3.** Re-entrancy single-flight invariant: while a generation is in
flight (`isGeneratingRef.current = true`), a second `generate()` call returns
immediately without proceeding — the chat messages, the streaming/loading
flags, the accumulated state and the transport-dispatch count are all left
exactly as they were, so at most one generation is ever in flight per
orchestrator instance. -/
theorem reentrancy_single_flight (s : OrchestratorState) (userInput : String)
    (h : s.isGenerating = true) :
    generateEntry s userInput = (s, false) ∧
    (generateEntry s userInput).1.messages = s.messages ∧
    (generateEntry s userInput).1.dispatchCount = s.dispatchCount := by
  have hmain : generateEntry s userInput = (s, false) := by
    unfold generateEntry
    by_cases hp : s.hasProject
    · simp [hp, h]
    · simp [hp]
  exact ⟨hmain, by rw [hmain], by rw [hmain]⟩

/-- Witness for **C3** at a concrete in-flight state. -/
theorem reentrancy_single_flight_witness :
    generateEntry
      { hasProject := true, isGenerating := true,
        messages := [{ role := "user", content := "draw", status := .complete }],
        isStreaming := true, isLoading := true, dispatchCount := 1 }
      "second call" =
      ({ hasProject := true, isGenerating := true,
         messages := [{ role := "user", content := "draw", status := .complete }],
         isStreaming := true, isLoading := true, dispatchCount := 1 }, false) :=
  (reentrancy_single_flight
    { hasProject := true, isGenerating := true,
      messages := [{ role := "user", content := "draw", status := .complete }],
      isStreaming := true, isLoading := true, dispatchCount := 1 }
    "second call" rfl).1

/-- **C4.** Multimodal content building postcondition: a text input with no
attachments and no (trim-)non-empty preview thumbnail is built as the plain
text string with no multimodal wrapping; an input with at least one
attachment or a non-empty preview is built as the ordered parts list with
the preview image (when present) first, then the text part (the source emits
a text part exactly when the text is non-empty), then the attachments in
input order, mapped by `attachmentPart` (images as image parts, documents
and urls as text parts carrying their extracted content). -/
theorem multimodal_content_postcondition (text : String)
    (attachments : List Attachment) (currentThumbnail : Option String) :
    (attachments = [] → jsTrim (currentThumbnail.getD "") = "" →
      buildMultimodalContent text attachments currentThumbnail = .inl text) ∧
    (attachments ≠ [] ∨ jsTrim (currentThumbnail.getD "") ≠ "" →
      buildMultimodalContent text attachments currentThumbnail =
        .inr
          ((if jsTrim (currentThumbnail.getD "") ≠ "" then
              [ContentPart.image_url (currentThumbnail.getD "")]
            else []) ++
           (if text ≠ "" then [ContentPart.text text] else []) ++
           attachments.map attachmentPart)) := by
  have hthumb : ∀ h : jsTrim (currentThumbnail.getD "") ≠ "",
      jsTruthy currentThumbnail = true := by
    intro h
    cases currentThumbnail with
    | none => exact absurd (by decide) h
    | some t =>
      simp only [Option.getD] at h
      simp only [jsTruthy, decide_eq_true_eq]
      intro he
      rw [he] at h
      exact h (by decide)
  constructor
  · intro hatt hth
    unfold buildMultimodalContent
    simp [hatt, hth]
  · intro hor
    unfold buildMultimodalContent
    rcases hor with hatt | hth
    · have hne : attachments.isEmpty = false := by
        cases attachments with
        | nil => exact absurd rfl hatt
        | cons a as => rfl
      by_cases ht : jsTrim (currentThumbnail.getD "") = ""
      · simp [hne, ht]
      · simp [hne, ht, hthumb ht]
    · have hj := hthumb hth
      by_cases hatt : attachments.isEmpty
      · have : attachments = [] := by
          cases attachments with
          | nil => rfl
          | cons a as => simp at hatt
        subst this
        simp [hth, hj]
      · simp only [Bool.not_eq_true] at hatt
        simp [hatt, hth, hj]

/-- Witness for **C4**: a text-only input stays plain text; an input with a
preview, text and one document attachment is built as the ordered parts
list. -/
theorem multimodal_content_postcondition_witness :
    buildMultimodalContent "hello" [] none = .inl "hello" ∧
    buildMultimodalContent "hello" [Attachment.document "f.txt" "body"]
        (some "thumb") =
      .inr [ContentPart.image_url "thumb", ContentPart.text "hello",
            ContentPart.text ("\n\n[Document: " ++ "f.txt" ++ "]\n" ++ "body")] := by
  constructor
  · exact (multimodal_content_postcondition "hello" [] none).1 rfl (by decide)
  · have h := (multimodal_content_postcondition "hello"
      [Attachment.document "f.txt" "body"] (some "thumb")).2
      (Or.inl (by simp))
    rw [h]
    decide

/-- **C7 counterexample.** The claim says a user-aborted generation leaves
the assistant record in a terminal state that is *not* the `error` status;
but the source's abort branch sets `status: 'error'`
(`updateMessage(assistantMsgId, { content: '已停止生成', status: 'error' })`). -/
theorem cancellation_status_counterexample :
    (generateCatchHandler true "AbortError").1.2 = MsgStatus.error := by
  decide

/-- **C7 (amended).** A generation cancelled by the user's abort action ends
with the assistant record carrying the distinct stopped message
`已停止生成` under status `error` (the chat store has no separate "stopped"
status) — not status `complete` — and no error is surfaced to the
user-visible toast channel; a genuine failure, by contrast, records
`Error: <message>` and surfaces a toast. -/
theorem cancellation_terminal_state (errMsg : String) :
    generateCatchHandler true errMsg = (("已停止生成", .error), false) ∧
    (generateCatchHandler true errMsg).1.2 ≠ MsgStatus.complete ∧
    (generateCatchHandler true errMsg).2 = false ∧
    generateCatchHandler false errMsg = (("Error: " ++ errMsg, .error), true) := by
  refine ⟨rfl, ?_, rfl, rfl⟩
  simp [generateCatchHandler]

/-! ## Transport client (`src/services/aiService.ts`) -/

/-- The host primitive `String.prototype.startsWith`. -/
def jsStartsWith (s pre : String) : Bool :=
  pre.data.isPrefixOf s.data

/-- The host primitive `String.prototype.slice(n)` (for the ASCII prefixes
used here, byte and character indices coincide). -/
def jsSlice (s : String) (n : Nat) : String :=
  String.mk (s.data.drop n)

/-- From `parseSSELine(line)`:

```
let data = line
if (line.startsWith('data: ')) data = line.slice(6)
if (data === '[DONE]') return null
if (!data.trim()) return null
try {
  const parsed = JSON.parse(data)
  if (parsed.choices?.[0]?.delta?.content !== undefined) return parsed.choices[0].delta.content
  if (parsed.content !== undefined) return parsed.content
  if (parsed.text !== undefined) return parsed.text
  if (parsed.type === 'content_block_delta' && parsed.delta?.text !== undefined)
    return parsed.delta.text
  return null
} catch { if (data.trim()) return data }
return null
```

`JSON.parse` is the parameter `jsonParse` (`none` = the `catch` branch). -/
def parseSSELine (jsonParse : String → Option Json) (line : String) :
    Option String :=
  let data := if jsStartsWith line "data: " then jsSlice line 6 else line
  if data = "[DONE]" then none
  else if jsTrim data = "" then none
  else
    match jsonParse data with
    | some parsed =>
      match (((parsed.getField "choices").bind (fun c => c.getIndex 0)).bind
          (fun c => c.getField "delta")).bind (fun d => d.getField "content") with
      | some v => v.asString
      | none =>
        match parsed.getField "content" with
        | some v => v.asString
        | none =>
          match parsed.getField "text" with
          | some v => v.asString
          | none =>
            match parsed.getField "type" with
            | some (.str t) =>
              if t = "content_block_delta" then
                match (parsed.getField "delta").bind
                    (fun d => d.getField "text") with
                | some v => v.asString
                | none => none
              else none
            | _ => none
    | none => if jsTrim data ≠ "" then some data else none

/-- `buffer.split('\n')` followed by `buffer = lines.pop()`: the complete
lines of a character sequence and the trailing incomplete remainder. -/
def splitComplete : List Char → List (List Char) × List Char
  | [] => ([], [])
  | c :: cs =>
    let r := splitComplete cs
    if c = '\n' then ([] :: r.1, r.2)
    else
      match r.1 with
      | [] => ([], c :: r.2)
      | l :: ls => ((c :: l) :: ls, r.2)

/-- The state accumulated by `streamChat`'s read loop: the running
`fullContent`, the line `buffer`, the raw response transcript, and the
sequence of `onChunk(content, fullContent)` deliveries. -/
structure StreamState where
  fullContent : String
  buffer : List Char
  rawResponse : List Char
  emitted : List (String × String)

/-- The per-line body of `streamChat`'s read loop:

```
const trimmedLine = line.trim()
if (!trimmedLine) continue
const content = parseSSELine(trimmedLine)
if (content) { fullContent += content; onChunk(content, fullContent) }
```
-/
def processLine (jsonParse : String → Option Json) (s : StreamState)
    (line : List Char) : StreamState :=
  let trimmedLine := jsTrim (String.mk line)
  if trimmedLine = "" then s
  else
    match parseSSELine jsonParse trimmedLine with
    | some content =>
      if content = "" then s
      else
        { s with
            fullContent := s.fullContent ++ content,
            emitted := s.emitted ++ [(content, s.fullContent ++ content)] }
    | none => s

/-- One iteration of `streamChat`'s read loop for one decoded chunk:

```
buffer += chunk
rawResponse += chunk
const lines = buffer.split('\n')
buffer = lines.pop() || ''
for (const line of lines) { ... }
```
-/
def feedChunk (jsonParse : String → Option Json) (s : StreamState)
    (chunk : List Char) : StreamState :=
  let split := splitComplete (s.buffer ++ chunk)
  split.1.foldl (processLine jsonParse)
    { s with buffer := split.2, rawResponse := s.rawResponse ++ chunk }

/-- After the read loop: `// Process remaining buffer`

```
if (buffer.trim()) {
  const content = parseSSELine(buffer.trim())
  if (content) { fullContent += content; onChunk(content, fullContent) }
}
```
-/
def finishStream (jsonParse : String → Option Json) (s : StreamState) :
    StreamState :=
  let trimmed := jsTrim (String.mk s.buffer)
  if trimmed = "" then s
  else
    match parseSSELine jsonParse trimmed with
    | some content =>
      if content = "" then s
      else
        { s with
            fullContent := s.fullContent ++ content,
            emitted := s.emitted ++ [(content, s.fullContent ++ content)] }
    | none => s

/-- Degenerate-stream recovery: `if (!fullContent && rawResponse.trim())`,
parse the whole raw response as one JSON document and extract content from
`content || message || choices[0].message.content || choices[0].text ||
(typeof response === 'string' ? response : null)`; on a truthy extraction,
set `fullContent` and deliver it via `onChunk`. -/
def recoverFromRaw (jsonParse : String → Option Json) (s : StreamState) :
    StreamState :=
  if s.fullContent = "" ∧ jsTrim (String.mk s.rawResponse) ≠ "" then
    match jsonParse (String.mk s.rawResponse) with
    | some jsonResponse =>
      let extracted :=
        match jsTruthyJson (jsonResponse.getField "content") with
        | some c => some c
        | none =>
          match jsTruthyJson (jsonResponse.getField "message") with
          | some c => some c
          | none =>
            match jsTruthyJson ((((jsonResponse.getField "choices").bind
                (fun c => c.getIndex 0)).bind (fun c => c.getField "message")).bind
                (fun m => m.getField "content")) with
            | some c => some c
            | none =>
              match jsTruthyJson (((jsonResponse.getField "choices").bind
                  (fun c => c.getIndex 0)).bind (fun c => c.getField "text")) with
              | some c => some c
              | none =>
                match jsonResponse with
                | .str raw => if raw = "" then none else some raw
                | _ => none
      match extracted with
      | some content =>
        { s with fullContent := content, emitted := s.emitted ++ [(content, content)] }
      | none => s
    | none => s
  else s

/-- The initial state of a `streamChat` call. -/
def initialStreamState : StreamState :=
  { fullContent := "", buffer := [], rawResponse := [], emitted := [] }

/-- The whole frame-parsing pipeline of a `streamChat` call on a given
sequence of decoded chunks: the read loop over every chunk, then the
remaining-buffer step, then the degenerate-stream JSON recovery. -/
def runStreamBody (jsonParse : String → Option Json)
    (chunks : List (List Char)) : StreamState :=
  recoverFromRaw jsonParse
    (finishStream jsonParse (chunks.foldl (feedChunk jsonParse) initialStreamState))

/-- The tail of `streamChat`, including the last-resort fallback:

```
if (!fullContent && chunkCount === 0) {
  const fallbackContent = await this.chat(messages)
  if (fallbackContent) { onChunk(fallbackContent, fallbackContent); return fallbackContent }
}
return fullContent
```

`chatResult` is what the one non-streaming `this.chat(messages)` call would
return; the result is `(returned content, number of fallback chat calls,
onChunk deliveries)`.  `chunkCount` is the number of reads performed, i.e.
`chunks.length`. -/
def streamChatResult (jsonParse : String → Option Json)
    (chunks : List (List Char)) (chatResult : String) :
    String × Nat × List (String × String) :=
  let s := runStreamBody jsonParse chunks
  let chunkCount := chunks.length
  if s.fullContent = "" ∧ chunkCount = 0 then
    if chatResult ≠ "" then (chatResult, 1, s.emitted ++ [(chatResult, chatResult)])
    else (s.fullContent, 1, s.emitted)
  else (s.fullContent, 0, s.emitted)

/-- From the non-streaming `chat(messages)`:

```
if (!response.ok) { const error = await response.text(); throw ... }
const data = await response.json()
return data.content || data.message || ''
```

Modelled on the response's `ok` flag, error body, and parsed JSON body. -/
def chat (resOk : Bool) (errorBody : String) (data : Json) :
    Except String String :=
  if ¬ resOk then .error ("AI request failed: " ++ errorBody)
  else
    .ok
      (match jsTruthyJson (data.getField "content") with
       | some c => c
       | none =>
         match jsTruthyJson (data.getField "message") with
         | some c => c
         | none => "")

/-! ## Claims about the transport client -/

theorem splitComplete_cons_newline (cs : List Char) :
    splitComplete ('\n' :: cs) =
      ([] :: (splitComplete cs).1, (splitComplete cs).2) := by
  simp [splitComplete]

theorem splitComplete_cons (c : Char) (cs : List Char) (hc : c ≠ '\n') :
    splitComplete (c :: cs) =
      (match (splitComplete cs).1 with
       | [] => ([], c :: (splitComplete cs).2)
       | l :: ls => ((c :: l) :: ls, (splitComplete cs).2)) := by
  simp only [splitComplete, if_neg hc]

/-- Splitting a concatenation: the complete lines of `a ++ b` are the
complete lines of `a` followed by the complete lines of `a`'s remainder
prepended to `b`, and the remainders agree. -/
theorem splitComplete_append (a b : List Char) :
    splitComplete (a ++ b) =
      ((splitComplete a).1 ++ (splitComplete ((splitComplete a).2 ++ b)).1,
       (splitComplete ((splitComplete a).2 ++ b)).2) := by
  induction a with
  | nil => simp [splitComplete]
  | cons c cs ih =>
    by_cases hc : c = '\n'
    · subst hc
      rw [List.cons_append, splitComplete_cons_newline, ih,
        splitComplete_cons_newline]
      simp
    · rw [List.cons_append, splitComplete_cons c _ hc, ih,
        splitComplete_cons c cs hc]
      cases h1 : (splitComplete cs).1 with
      | nil =>
        simp only [h1, List.nil_append]
        rw [List.cons_append, splitComplete_cons c _ hc]
      | cons l ls =>
        simp only [h1, List.cons_append]

theorem processLine_set (jp : String → Option Json) (s : StreamState)
    (line : List Char) (b r : List Char) :
    processLine jp { s with buffer := b, rawResponse := r } line =
      { processLine jp s line with buffer := b, rawResponse := r } := by
  unfold processLine
  by_cases h1 : jsTrim (String.mk line) = ""
  · simp [h1]
  · simp only [h1, if_false]
    cases h2 : parseSSELine jp (jsTrim (String.mk line)) with
    | none => simp [h2]
    | some content =>
      by_cases h3 : content = "" <;> simp [h2, h3]

theorem foldl_processLine_set (jp : String → Option Json)
    (ls : List (List Char)) (s : StreamState) (b r : List Char) :
    ls.foldl (processLine jp) { s with buffer := b, rawResponse := r } =
      { ls.foldl (processLine jp) s with buffer := b, rawResponse := r } := by
  induction ls generalizing s with
  | nil => rfl
  | cons l ls ih =>
    simp only [List.foldl_cons, processLine_set, ih]

theorem feedChunk_eq (jp : String → Option Json) (s : StreamState)
    (chunk : List Char) :
    feedChunk jp s chunk =
      { (splitComplete (s.buffer ++ chunk)).1.foldl (processLine jp) s with
        buffer := (splitComplete (s.buffer ++ chunk)).2,
        rawResponse := s.rawResponse ++ chunk } := by
  unfold feedChunk
  rw [foldl_processLine_set]

/-- Feeding two consecutive chunks equals feeding their concatenation. -/
theorem feedChunk_append (jp : String → Option Json) (s : StreamState)
    (a b : List Char) :
    feedChunk jp (feedChunk jp s a) b = feedChunk jp s (a ++ b) := by
  rw [feedChunk_eq jp s a, feedChunk_eq, feedChunk_eq jp s (a ++ b)]
  simp only []
  rw [← List.append_assoc s.buffer a b,
    splitComplete_append (s.buffer ++ a) b]
  simp only [List.foldl_append]
  rw [foldl_processLine_set, foldl_processLine_set]
  simp [List.append_assoc]

/-- Folding the read loop over a chunk list equals one read of th
concatenated stream. -/
theorem foldl_feedChunk_aux (jp : String → Option Json) :
    ∀ (rest : List (List Char)) (s : StreamState) (c : List Char),
      rest.foldl (feedChunk jp) (feedChunk jp s c) =
        feedChunk jp s (c ++ rest.flatten) := by
  intro rest
  induction rest with
  | nil => intro s c; simp
  | cons d rest ih =>
    intro s c
    simp only [List.foldl_cons, List.flatten_cons]
    rw [feedChunk_append jp s c d, ih s (c ++ d), List.append_assoc]

theorem foldl_feedChunk_join (jp : String → Option Json)
    (chunks : List (List Char)) :
    chunks.foldl (feedChunk jp) initialStreamState =
      feedChunk jp initialStreamState chunks.flatten := by
  cases chunks with
  | nil =>
    simp [feedChunk_eq, initialStreamState, splitComplete]
  | cons c rest =>
    simp only [List.foldl_cons, List.flatten_cons]
    exact foldl_feedChunk_aux jp rest initialStreamState c

/-- **C5.** Chunk-boundary independence of streaming reassembly: feeding a
response's decoded byte sequence to `streamChat`'s consumer loop in one
chunk versus split at arbitrary chunk boundaries drives the whole pipeline
(line reassembly, frame parsing, remaining-buffer processing, degenerate
JSON recovery) to the same final state — in particular the same ordered
sequence of delivered `onChunk` frames and the identical accumulated
text — for every JSON-parse oracle. -/
theorem stream_chunk_boundary_independence (jp : String → Option Json)
    (chunks : List (List Char)) :
    runStreamBody jp chunks = runStreamBody jp [chunks.flatten] ∧
    (runStreamBody jp chunks).emitted = (runStreamBody jp [chunks.flatten]).emitted ∧
    (runStreamBody jp chunks).fullContent =
      (runStreamBody jp [chunks.flatten]).fullContent := by
  have h : chunks.foldl (feedChunk jp) initialStreamState =
      [chunks.flatten].foldl (feedChunk jp) initialStreamState := by
    rw [foldl_feedChunk_join]
    simp only [List.foldl_cons, List.foldl_nil]
  unfold runStreamBody
  rw [h]
  exact ⟨rfl, rfl, rfl⟩

/-- A JSON-parse oracle that fails on every input (a stream whose lines and
body are not JSON). -/
def noJson : String → Option Json := fun _ => none

/-- **C6 counterexample.** The claim says every streaming call whose
accumulated content is still empty after frame parsing and whole-body JSON
recovery performs exactly one non-streaming retry; but the source gates the
fallback on `chunkCount === 0`, not on emptiness: a one-chunk stream
consisting only of the terminator line leaves the content empty after all
recovery yet performs zero fallback calls. -/
theorem fallback_claim_counterexample :
    (runStreamBody noJson [("data: [DONE]\n").data]).fullContent = "" ∧
    (streamChatResult noJson [("data: [DONE]\n").data] "X").2.1 = 0 := by
  constructor <;> rfl

/-- **C6 (amended).** The last-resort non-streaming fallback is performed
exactly when the streaming response yielded zero read chunks (in which case
the accumulated content is necessarily empty); it is then performed exactly
once — never more than once — and, when the non-streaming call returns
non-empty content, that content is returned and delivered through the same
chunk callback. -/
theorem fallback_exactly_on_zero_chunks (jp : String → Option Json)
    (chunks : List (List Char)) (chatResult : String) :
    (streamChatResult jp chunks chatResult).2.1 =
      (if chunks = [] then 1 else 0) ∧
    (streamChatResult jp chunks chatResult).2.1 ≤ 1 ∧
    (chunks = [] → chatResult ≠ "" →
      (streamChatResult jp chunks chatResult).1 = chatResult ∧
      (streamChatResult jp chunks chatResult).2.2 = [(chatResult, chatResult)]) := by
  have hrun : runStreamBody jp [] = initialStreamState := rfl
  refine ⟨?_, ?_, ?_⟩
  · cases chunks with
    | nil =>
      simp only [if_pos rfl]
      unfold streamChatResult
      rw [hrun]
      by_cases hc : chatResult ≠ "" <;> simp [initialStreamState, hc]
    | cons c rest =>
      have hne : (c :: rest : List (List Char)) ≠ [] := by simp
      simp only [if_neg hne]
      unfold streamChatResult
      have : ¬ ((runStreamBody jp (c :: rest)).fullContent = "" ∧
          (c :: rest : List (List Char)).length = 0) := by
        intro h
        simp at h
      simp only [if_neg this]
  · cases chunks with
    | nil =>
      unfold streamChatResult
      rw [hrun]
      by_cases hc : chatResult ≠ "" <;> simp [initialStreamState, hc]
    | cons c rest =>
      unfold streamChatResult
      have : ¬ ((runStreamBody jp (c :: rest)).fullContent = "" ∧
          (c :: rest : List (List Char)).length = 0) := by
        intro h
        simp at h
      simp only [if_neg this]
      omega
  · intro hnil hc
    subst hnil
    unfold streamChatResult
    rw [hrun]
    simp [initialStreamState, hc]

/-- Witness for **C6 (amended)**: a zero-chunk stream performs the single
fallback call and returns its content through the callback. -/
theorem fallback_exactly_on_zero_chunks_witness :
    (streamChatResult noJson [] "X").1 = "X" ∧
    (streamChatResult noJson [] "X").2.1 = 1 ∧
    (streamChatResult noJson [] "X").2.2 = [("X", "X")] := by
  have h := fallback_exactly_on_zero_chunks noJson [] "X"
  refine ⟨(h.2.2 rfl (by decide)).1, ?_, (h.2.2 rfl (by decide)).2⟩
  rw [h.1]
  rfl

/-- **C10.** The non-streaming `chat` operation, on a 2xx gateway response
whose JSON body contains neither a `content` nor a `message` field, resolves
successfully with the empty string rather than raising; on every 2xx
response it resolves (never throws); and it throws the transport error
exactly on a non-2xx status, carrying the upstream error body. -/
theorem chat_empty_body_resolves (errorBody : String) (data : Json) :
    (data.getField "content" = none → data.getField "message" = none →
      chat true errorBody data = .ok "") ∧
    (∃ s, chat true errorBody data = .ok s) ∧
    chat false errorBody data = .error ("AI request failed: " ++ errorBody) := by
  refine ⟨?_, ?_, ?_⟩
  · intro h1 h2
    simp [chat, h1, h2, jsTruthyJson]
  · exact ⟨_, rfl⟩
  · rfl

/-- Witness for **C10** on a concrete body `{"foo": "bar"}`. -/
theorem chat_empty_body_resolves_witness :
    chat true "" (Json.obj [("foo", Json.str "bar")]) = .ok "" :=
  (chat_empty_body_resolves "" (Json.obj [("foo", Json.str "bar")])).1 rfl rfl

/-! ## Anthropic streaming relay (`servers/shared/stream-anthropic.ts`) -/

/-- One `res.write` of the relay's uniform outbound format:
`.content t` stands for the frame `data: JSON.stringify({content: t})`
followed by a blank line, `.done` for the frame `data: [DONE]` followed by
a blank line. -/
inductive RelayFrame where
  | content (text : String)
  | done
deriving DecidableEq

/-- The per-line body of `streamAnthropic`'s read loop:

```
const trimmed = line.trim()
if (!trimmed || !trimmed.startsWith('data: ')) continue
const data = trimmed.slice(6)
if (data === '[DONE]') { res.write('data: [DONE]\n\n'); continue }
try {
  const parsed = JSON.parse(data)
  if (parsed.type === 'content_block_delta' && parsed.delta?.text) {
    res.write(`data: ` + JSON.stringify({content: parsed.delta.text}) + `\n\n`)
  }
} catch { /* Skip invalid JSON */ }
```

`parsed.delta?.text` is a truthiness test: an absent or empty text delta is
not re-emitted. -/
def anthropicRelayLine (jsonParse : String → Option Json)
    (out : List RelayFrame) (line : List Char) : List RelayFrame :=
  let trimmed := jsTrim (String.mk line)
  if trimmed = "" then out
  else if ¬ jsStartsWith trimmed "data: " then out
  else
    let data := jsSlice trimmed 6
    if data = "[DONE]" then out ++ [RelayFrame.done]
    else
      match jsonParse data with
      | some parsed =>
        match parsed.getField "type" with
        | some (.str t) =>
          if t = "content_block_delta" then
            match jsTruthyJson ((parsed.getField "delta").bind
                (fun d => d.getField "text")) with
            | some text => out ++ [RelayFrame.content text]
            | none => out
          else out
        | _ => out
      | none => out

/-- The relay's line-buffer state (`buffer` plus the frames written so
far). -/
structure RelayState where
  buffer : List Char
  out : List RelayFrame

/-- One chunk iteration of `streamAnthropic`'s read loop (`buffer += chunk;
lines = buffer.split('\n'); buffer = lines.pop()`, then the per-line
body). -/
def relayFeedChunk (jsonParse : String → Option Json) (s : RelayState)
    (chunk : List Char) : RelayState :=
  { buffer := (splitComplete (s.buffer ++ chunk)).2,
    out := (splitComplete (s.buffer ++ chunk)).1.foldl
      (anthropicRelayLine jsonParse) s.out }

/-- `streamAnthropic`'s relay of an upstream chunk sequence: the frames
written downstream.  After the upstream ends, the source runs
`reader.releaseLock(); res.end()` — the leftover buffer is discarded and the
response is closed without emitting any further frame. -/
def streamAnthropic (jsonParse : String → Option Json)
    (chunks : List (List Char)) : List RelayFrame :=
  (chunks.foldl (relayFeedChunk jsonParse) { buffer := [], out := [] }).out

/-- The upstream byte sequence of a list of SSE events given by their raw
payloads: each event is one line `data: <payload>` terminated by a
newline. -/
def renderStream (payloads : List String) : List Char :=
  (payloads.map (fun p => ("data: " ++ p ++ "\n").data)).flatten

/-- The `JSON.parse` image of an Anthropic `content_block_delta` event
carrying the text delta `t`. -/
def contentBlockDelta (t : String) : Json :=
  .obj [("type", Json.str "content_block_delta"),
        ("delta", Json.obj [("text", Json.str t)])]

/-- The raw payload of the event used in the concrete relay examples:
`{"type":"content_block_delta","delta":{"text":"hi"}}`. -/
def deltaPayloadHi : String :=
  "\x7b\"type\":\"content_block_delta\",\"delta\":\x7b\"text\":\"hi\"\x7d\x7d"

/-- A concrete stand-in for `JSON.parse` on the inputs used in the
examples: it parses `deltaPayloadHi` and nothing else. -/
def testJson : String → Option Json := fun s =>
  if s = deltaPayloadHi then some (contentBlockDelta "hi") else none

/-! ## Claims about the Anthropic relay -/

/-- Splitting off one newline-terminated line whose body contains no
newline. -/
theorem splitComplete_line (x r : List Char) (hx : '\n' ∉ x) :
    splitComplete (x ++ '\n' :: r) =
      (x :: (splitComplete r).1, (splitComplete r).2) := by
  induction x with
  | nil => simp [splitComplete_cons_newline]
  | cons c cs ih =>
    have hc : c ≠ '\n' := by
      intro h
      exact hx (h ▸ List.mem_cons_self c cs)
    have hcs : '\n' ∉ cs := fun h => hx (List.mem_cons_of_mem c h)
    rw [List.cons_append, splitComplete_cons c _ hc, ih hcs]

/-- An SSE `data:` line carrying a parsed `content_block_delta` event with a
non-empty text delta is relayed as exactly one content frame. -/
theorem anthropicRelayLine_delta (jp : String → Option Json)
    (out : List RelayFrame) (p t : String)
    (hpar : jp p = some (contentBlockDelta t))
    (htrim : jsTrim ("data: " ++ p) = "data: " ++ p)
    (hne : t ≠ "") (hnd : p ≠ "[DONE]") :
    anthropicRelayLine jp out ("data: " ++ p).data =
      out ++ [RelayFrame.content t] := by
  have hmk : String.mk ("data: " ++ p).data = "data: " ++ p := rfl
  have hnil : ("data: " ++ p) ≠ "" := by
    intro h
    have hd := congrArg String.data h
    rw [String.data_append] at hd
    have h0 : ("" : String).data = [] := rfl
    rw [h0] at hd
    exact absurd (List.append_eq_nil.mp hd).1 (by decide)
  have hpre : jsStartsWith ("data: " ++ p) "data: " = true := by
    unfold jsStartsWith
    rw [String.data_append, List.isPrefixOf_iff_prefix]
    exact List.prefix_append _ _
  have hslice : jsSlice ("data: " ++ p) 6 = p := by
    unfold jsSlice
    rw [String.data_append]
    have h6 : ("data: ".data).length = 6 := by decide
    rw [← h6, List.drop_left]
  unfold anthropicRelayLine
  rw [hmk, htrim]
  rw [if_neg hnil, if_neg (by rw [hpre]; simp), hslice, if_neg hnd, hpar]
  have hty : (contentBlockDelta t).getField "type" =
      some (Json.str "content_block_delta") := rfl
  have hdelta : ((contentBlockDelta t).getField "delta").bind
      (fun d => d.getField "text") = some (Json.str t) := rfl
  simp only [hty, hdelta]
  simp [jsTruthyJson, hne]

/-- The `data: [DONE]` line is relayed as one terminator frame. -/
theorem anthropicRelayLine_done (jp : String → Option Json)
    (out : List RelayFrame) :
    anthropicRelayLine jp out ("data: [DONE]").data =
      out ++ [RelayFrame.done] := by
  rfl

/-- Relaying the rendered lines of a list of delta events appends exactly
their content frames, in order. -/
theorem foldl_anthropicRelayLine (jp : String → Option Json)
    (events : List (String × String)) (out : List RelayFrame)
    (hpar : ∀ p ∈ events, jp p.1 = some (contentBlockDelta p.2))
    (htrim : ∀ p ∈ events, jsTrim ("data: " ++ p.1) = "data: " ++ p.1)
    (hne : ∀ p ∈ events, p.2 ≠ "") (hnd : ∀ p ∈ events, p.1 ≠ "[DONE]") :
    (events.map (fun p => ("data: " ++ p.1).data)).foldl
        (anthropicRelayLine jp) out =
      out ++ events.map (fun p => RelayFrame.content p.2) := by
  induction events generalizing out with
  | nil => simp
  | cons p es ih =>
    simp only [List.map_cons, List.foldl_cons]
    rw [anthropicRelayLine_delta jp out p.1 p.2
        (hpar p (List.mem_cons_self p es))
        (htrim p (List.mem_cons_self p es))
        (hne p (List.mem_cons_self p es))
        (hnd p (List.mem_cons_self p es)),
      ih (out ++ [RelayFrame.content p.2])
        (fun q hq => hpar q (List.mem_cons_of_mem p hq))
        (fun q hq => htrim q (List.mem_cons_of_mem p hq))
        (fun q hq => hne q (List.mem_cons_of_mem p hq))
        (fun q hq => hnd q (List.mem_cons_of_mem p hq))]
    simp

/-- The complete lines of a rendered event stream followed by a trailer. -/
theorem splitComplete_renderStream (events : List (String × String)) (r : List Char)
    (hnl : ∀ p ∈ events, '\n' ∉ p.1.data) :
    splitComplete (renderStream (events.map (fun p => p.1)) ++ r) =
      ((events.map (fun p => ("data: " ++ p.1).data)) ++ (splitComplete r).1,
       (splitComplete r).2) := by
  induction events with
  | nil => simp [renderStream]
  | cons p es ih =>
    have hline : ('\n' : Char) ∉ ("data: " ++ p.1).data := by
      rw [String.data_append]
      intro hmem
      rcases List.mem_append.mp hmem with h | h
      · exact absurd h (by decide)
      · exact hnl p (List.mem_cons_self p es) h
    have hdata : ("data: " ++ p.1 ++ "\n").data =
        ("data: " ++ p.1).data ++ '\n' :: [] := by
      rw [String.data_append]
    simp only [renderStream, List.map_cons, List.flatten_cons]
    rw [hdata, List.append_assoc, List.append_assoc, List.cons_append,
      List.nil_append,
      splitComplete_line _ _ hline]
    have ih2 := ih (fun q hq => hnl q (List.mem_cons_of_mem p hq))
    simp only [renderStream] at ih2
    rw [ih2]
    rfl

/-- **C8 counterexample.** The claim says the relay finally emits the
uniform terminator frame `data: [DONE]` before closing the response; but on
an upstream stream consisting of one `content_block_delta` event and no
upstream `[DONE]` line, the source relays the one content frame and then
closes the response (`res.end()`) without writing any terminator frame. -/
theorem anthropic_relay_terminator_counterexample :
    streamAnthropic testJson [("data: " ++ deltaPayloadHi ++ "\n").data] =
      [RelayFrame.content "hi"] ∧
    RelayFrame.done ∉
      streamAnthropic testJson [("data: " ++ deltaPayloadHi ++ "\n").data] := by
  constructor
  · rfl
  · decide

/-- **C8 (amended).** For every upstream stream of `content_block_delta`
events carrying non-empty text deltas, each event is re-emitted downstream
as exactly one uniform content frame, in upstream order; an upstream
`data: [DONE]` line is relayed through as the uniform terminator frame; and
when the upstream stream contains no `[DONE]` line the relay emits the
content frames only and closes the response without appending a terminator
of its own. -/
theorem anthropic_relay_reframing (jp : String → Option Json)
    (events : List (String × String))
    (hpar : ∀ p ∈ events, jp p.1 = some (contentBlockDelta p.2))
    (hnl : ∀ p ∈ events, '\n' ∉ p.1.data)
    (htrim : ∀ p ∈ events, jsTrim ("data: " ++ p.1) = "data: " ++ p.1)
    (hne : ∀ p ∈ events, p.2 ≠ "")
    (hnd : ∀ p ∈ events, p.1 ≠ "[DONE]") :
    streamAnthropic jp
        [renderStream (events.map (fun p => p.1)) ++ ("data: [DONE]\n").data] =
      events.map (fun p => RelayFrame.content p.2) ++ [RelayFrame.done] ∧
    streamAnthropic jp [renderStream (events.map (fun p => p.1))] =
      events.map (fun p => RelayFrame.content p.2) := by
  constructor
  · unfold streamAnthropic
    simp only [List.foldl_cons, List.foldl_nil]
    unfold relayFeedChunk
    simp only [List.nil_append]
    rw [splitComplete_renderStream events _ hnl]
    have hdone : splitComplete (("data: [DONE]\n").data) =
        ([("data: [DONE]").data], ([] : List Char)) := rfl
    rw [hdone]
    simp only [List.foldl_append, List.foldl_cons, List.foldl_nil]
    rw [foldl_anthropicRelayLine jp events [] hpar htrim hne hnd,
      anthropicRelayLine_done]
    simp
  · unfold streamAnthropic
    simp only [List.foldl_cons, List.foldl_nil]
    unfold relayFeedChunk
    simp only [List.nil_append]
    rw [(List.append_nil (renderStream (events.map (fun p => p.1)))).symm,
      splitComplete_renderStream events _ hnl]
    have hnil : splitComplete ([] : List Char) = ([], []) := rfl
    rw [hnil]
    simp only [List.append_nil]
    rw [foldl_anthropicRelayLine jp events [] hpar htrim hne hnd]
    simp

/-- Witness for **C8 (amended)** at the concrete one-event stream. -/
theorem anthropic_relay_reframing_witness :
    streamAnthropic testJson
        [renderStream [deltaPayloadHi] ++ ("data: [DONE]\n").data] =
      [RelayFrame.content "hi", RelayFrame.done] := by
  have h := (anthropic_relay_reframing testJson [(deltaPayloadHi, "hi")]
    (by intro p hp
        rw [List.mem_singleton] at hp
        subst hp
        rfl)
    (by intro p hp
        rw [List.mem_singleton] at hp
        subst hp
        decide)
    (by intro p hp
        rw [List.mem_singleton] at hp
        subst hp
        decide)
    (by intro p hp
        rw [List.mem_singleton] at hp
        subst hp
        decide)
    (by intro p hp
        rw [List.mem_singleton] at hp
        subst hp
        decide)).1
  simpa using h

/-! ## Generation strategies (`useAIGenerate.ts`, `promptBuilder.ts`) -/

/-- The engine types of the editor (`mermaid | excalidraw | drawio`). -/
inductive EngineType where
  | mermaid
  | excalidraw
  | drawio
deriving DecidableEq

/-- The three generation strategies of the orchestrator. -/
inductive GenStrategy where
  | twoPhase
  | singlePhaseInitial
  | edit
deriving DecidableEq

/-- The strategy selection inside `generate`:

```
if (isInitial) {
  // 暂时全都使用一步生成  (temporarily use single-phase for everything)
  const useTwoPhase = false
  if (useTwoPhase) { finalCode = await twoPhaseGeneration(...) }
  else { finalCode = await singlePhaseInitialGeneration(...) }
} else {
  finalCode = await singlePhaseGeneration(...)   // edit
}
```

The flag is hardcoded `false`; the engine type is not consulted. -/
def generateDispatch (isInitial : Bool) (engineType : EngineType) :
    GenStrategy :=
  if isInitial then
    let useTwoPhase := false
    if useTwoPhase then .twoPhase else .singlePhaseInitial
  else .edit

/-- From `buildInitialPrompt(userInput, useTwoPhase, phase?, elementsOutput?)`
(`src/lib/promptBuilder.ts`): the single-phase template, the `elements`-phase
template, and the `links`-phase template (the fall-through branch).  A JS
template literal renders `undefined` as the text `undefined`. -/
def buildInitialPrompt (userInput : String) (useTwoPhase : Bool)
    (phase : Option String) (elementsOutput : Option String) : String :=
  if useTwoPhase = false then
    "用户需求：\n\"\"\"\n" ++ userInput ++
      "\n\"\"\"\n\n根据以上需求，生成完整的图表代码。"
  else if phase = some "elements" then
    "用户需求：\n\"\"\"\n" ++ userInput ++
      "\n\"\"\"\n\n根据以上需求，识别并列出所有必要的图表节点和组件。\n仅输出包含节点/形状的数据结构，暂不创建任何连接或连线。"
  else
    "原始需求：\n\"\"\"\n" ++ userInput ++
      "\n\"\"\"\n\n已生成的元素：\n\"\"\"\n" ++
      (elementsOutput.getD "undefined") ++
      "\n\"\"\"\n\n根据这些元素，建立它们之间的逻辑连接、箭头和层级关系。\n输出最终完整的图表代码。"

/-- A message of the payload actually sent upstream
(`{ role, content: string | ContentPart[] }`). -/
structure PayloadMessage where
  role : String
  content : Sum String (List ContentPart)
deriving DecidableEq

/-- Phase 1 of `twoPhaseGeneration`: `buildMultimodalContent(phase1Prompt,
attachments)` with `phase1Prompt = buildInitialPrompt(userInput, true,
'elements')` (no thumbnail yet). -/
def twoPhasePhase1Content (userInput : String)
    (attachments : List Attachment) : Sum String (List ContentPart) :=
  buildMultimodalContent
    (buildInitialPrompt userInput true (some "elements") none) attachments none

/-- The phase-1 message list of `twoPhaseGeneration`:
`[{system}, {user, phase1Content}]`. -/
def twoPhasePhase1Messages (systemPrompt userInput : String)
    (attachments : List Attachment) : List PayloadMessage :=
  [{ role := "system", content := .inl systemPrompt },
   { role := "user", content := twoPhasePhase1Content userInput attachments }]

/-- The phase-2 message list of `twoPhaseGeneration`:

```
const phase2Prompt = buildInitialPrompt(userInput, true, 'links', elements)
const phase2Content = buildMultimodalContent(phase2Prompt, attachments, phase1Thumbnail)
const phase2Messages = [
  { role: 'system', content: systemPrompt },
  { role: 'user', content: phase1Content },
  { role: 'assistant', content: elements },
  { role: 'user', content: phase2Content },
]
```
-/
def twoPhasePhase2Messages (systemPrompt userInput : String)
    (attachments : List Attachment) (elements : String)
    (phase1Thumbnail : Option String) : List PayloadMessage :=
  [{ role := "system", content := .inl systemPrompt },
   { role := "user", content := twoPhasePhase1Content userInput attachments },
   { role := "assistant", content := .inl elements },
   { role := "user", content := buildMultimodalContent
      (buildInitialPrompt userInput true (some "links") (some elements))
      attachments phase1Thumbnail }]

/-! ## Claims about strategy dispatch -/

theorem append_ne_empty_of_left (a b : String) (h : a ≠ "") : a ++ b ≠ "" := by
  intro he
  apply h
  have hd := congrArg String.data he
  rw [String.data_append] at hd
  have h0 : ("" : String).data = [] := rfl
  rw [h0] at hd
  exact String.ext (by rw [(List.append_eq_nil.mp hd).1, h0])

theorem buildInitialPrompt_links (u els : String) :
    buildInitialPrompt u true (some "links") (some els) =
      "原始需求：\n\"\"\"\n" ++ u ++
        "\n\"\"\"\n\n已生成的元素：\n\"\"\"\n" ++ els ++
        "\n\"\"\"\n\n根据这些元素，建立它们之间的逻辑连接、箭头和层级关系。\n输出最终完整的图表代码。" := by
  rfl

theorem buildInitialPrompt_links_ne_empty (u els : String) :
    buildInitialPrompt u true (some "links") (some els) ≠ "" := by
  rw [buildInitialPrompt_links]
  apply append_ne_empty_of_left
  apply append_ne_empty_of_left
  apply append_ne_empty_of_left
  apply append_ne_empty_of_left
  decide

/-- **C9 counterexample.** The claim says initial generation on a structural
engine dispatches to the two-phase strategy; but `useTwoPhase` is hardcoded
`false` in the source, so initial generation on the structural `drawio`
engine dispatches to the single-phase initial strategy. -/
theorem strategy_dispatch_counterexample :
    generateDispatch true EngineType.drawio = GenStrategy.singlePhaseInitial ∧
    generateDispatch true EngineType.drawio ≠ GenStrategy.twoPhase := by
  decide

/-- **C9 (amended).** The dispatch depends only on `isInitial`: every initial
generation uses the single-phase initial strategy (the two-phase strategy is
implemented but disabled by the hardcoded `useTwoPhase = false`), and every
non-initial call uses the edit strategy.  The two-phase strategy as
implemented does build its phase-2 request by replaying the phase-1 prompt
content, the phase-1 output (as an assistant turn), and the phase-2 prompt
as one conversation, with the rendered phase-1 preview (when non-blank)
included first in the phase-2 content as visual grounding. -/
theorem strategy_dispatch (engineType : EngineType)
    (systemPrompt userInput elements : String)
    (attachments : List Attachment) (thumb : String)
    (hthumb : jsTrim thumb ≠ "") :
    generateDispatch true engineType = GenStrategy.singlePhaseInitial ∧
    generateDispatch false engineType = GenStrategy.edit ∧
    twoPhasePhase2Messages systemPrompt userInput attachments elements
        (some thumb) =
      [{ role := "system", content := .inl systemPrompt },
       { role := "user", content := twoPhasePhase1Content userInput attachments },
       { role := "assistant", content := .inl elements },
       { role := "user", content := .inr
          ([ContentPart.image_url thumb] ++
           [ContentPart.text
              (buildInitialPrompt userInput true (some "links") (some elements))] ++
           attachments.map attachmentPart) }] := by
  refine ⟨rfl, rfl, ?_⟩
  have hne : thumb ≠ "" := by
    intro h
    apply hthumb
    rw [h]
    rfl
  have hp := buildInitialPrompt_links_ne_empty userInput elements
  unfold twoPhasePhase2Messages
  unfold buildMultimodalContent
  have hjs : jsTruthy (some thumb) = true := by
    simp [jsTruthy, hne]
  cases hatt : attachments.isEmpty with
  | true =>
    have : attachments = [] := by
      cases attachments with
      | nil => rfl
      | cons a as => simp at hatt
    subst this
    simp [hjs, hthumb, hp]
  | false =>
    simp [hjs, hthumb, hp, hatt]

/-- Witness for **C9 (amended)** at concrete inputs. -/
theorem strategy_dispatch_witness :
    generateDispatch true EngineType.drawio = GenStrategy.singlePhaseInitial ∧
    generateDispatch false EngineType.drawio = GenStrategy.edit ∧
    twoPhasePhase2Messages "sys" "cat" [] "elems" (some "t") =
      [{ role := "system", content := .inl "sys" },
       { role := "user", content := twoPhasePhase1Content "cat" [] },
       { role := "assistant", content := .inl "elems" },
       { role := "user", content := .inr
          [ContentPart.image_url "t",
           ContentPart.text
             (buildInitialPrompt "cat" true (some "links") (some "elems"))] }] := by
  have h := strategy_dispatch EngineType.drawio "sys" "cat" "elems" [] "t"
    (by decide)
  refine ⟨h.1, h.2.1, ?_⟩
  rw [h.2.2]
  simp
